import Mathlib

/-!
# Verification of the VideoCube animation-script pipeline core

A shallow embedding of `src/agent/pipeline.py` (class `AnimationScriptPipeline`):
the five stage functions and the iterative refinement loop
`process_animation_story`, together with the data model of `src/agent/models.py`.

Model calls (`self.agent_manager.<agent>.run(...)`) are the external
collaborators: they are embedded as oracle functions `String → Except ε α`
collected in an `Agents` record; a raised exception is an `Except.error`.
Python's `str()` rendering of a pydantic `AnimationScriptOutput` (used only
inside the revision-composite f-string at pipeline.py line 193) is embedded as
an abstract parameter `render`, since its exact escaping is irrelevant to every
property proved here.  The reviewer prompt built at pipeline.py lines 141-150
is consumed by no property below, so the reviewer oracle takes the three data
arguments `(original_story, viewer_story, storyboard)` directly.

The orchestrator additionally returns a `RunTrace` recording, for each loop
pass, the input handed to storyboard generation, the storyboard produced, the
viewer output and the review output, plus the final value of the `iteration`
counter and whether the loop ended through the approval marker.  Each list
entry of the trace corresponds to exactly one storyboard-generation call, one
viewer call and one review call of the loop body (pipeline.py lines 186-217).
-/

namespace VideoCube

/-- `StoryboardInfo` from `src/agent/models.py`: one storyboard shot. -/
structure StoryboardInfo where
  shot_id : String
  plot_title : String
  scene_elements : String
  actions : String
  bgm_description : String
  sound_effect : String
  duration : String
deriving DecidableEq, Repr

/-- `CharacterDesign` from `src/agent/models.py`. -/
structure CharacterDesign where
  name : String
  characteristics : String
  appearance : String
deriving DecidableEq, Repr

/-- `PlotPoint` from `src/agent/models.py`. -/
structure PlotPoint where
  title : String
  description : String
deriving DecidableEq, Repr

/-- `ScriptDesignOutput` from `src/agent/models.py`. -/
structure ScriptDesignOutput where
  characters : List CharacterDesign
  plot_points : List PlotPoint
deriving DecidableEq, Repr

/-- `AnimationScriptOutput` from `src/agent/models.py`. -/
structure AnimationScriptOutput where
  storyboards : List StoryboardInfo
deriving DecidableEq, Repr

/-- Python's `"\n".join(l)` (via `chr(10).join` in pipeline.py lines 87/90). -/
def strJoin (sep : String) : List String → String
  | [] => ""
  | [s] => s
  | s :: t :: rest => s ++ sep ++ strJoin sep (t :: rest)

/-- The per-character line of the ScriptDesign flattening,
pipeline.py line 87: `f"- {char.name}: {char.characteristics}, 外观: {char.appearance}"`. -/
def charLine (c : CharacterDesign) : String :=
  "- " ++ c.name ++ ": " ++ c.characteristics ++ ", 外观: " ++ c.appearance

/-- The per-plot-point line of the ScriptDesign flattening,
pipeline.py line 90: `f"-  {plot.title}: {plot.description}"`. -/
def plotLine (p : PlotPoint) : String :=
  "-  " ++ p.title ++ ": " ++ p.description

/-- The exact text block `script_text` built by `design_storyboard` when its
input is a `ScriptDesignOutput` (pipeline.py lines 85-91, an f-string whose
template lines are indented by four spaces, with a sixteen-space indented
closing quote). -/
def flattenScript (sd : ScriptDesignOutput) : String :=
  "\n    角色设计:\n    " ++ strJoin "\n" (sd.characters.map charLine) ++
    "\n    \n    情节点:\n    " ++ strJoin "\n" (sd.plot_points.map plotLine) ++
    "\n                "

/-- The dynamically-typed argument of `design_storyboard`: the call sites pass
either a `ScriptDesignOutput` (first loop pass) or a plain string (revision
passes); the Python code dispatches with `isinstance(script_design,
ScriptDesignOutput)` (pipeline.py line 82). -/
inductive StoryboardInput where
  | structured (script_design : ScriptDesignOutput)
  | text (s : String)
deriving DecidableEq, Repr

/-- The prompt text `script_text` that `design_storyboard` hands to the model:
the flattened block for a `ScriptDesignOutput`, the input itself otherwise
(pipeline.py lines 82-95). -/
def storyboardPromptText : StoryboardInput → String
  | .structured script_design => flattenScript script_design
  | .text s => s

/-- `AnimationScriptPipeline.design_storyboard` (pipeline.py lines 70-102):
shape the input into a single prompt text, invoke the storyboard model once;
a model error is logged and re-raised unchanged (`except ... raise`). -/
def design_storyboard {ε : Type} (model : String → Except ε AnimationScriptOutput)
    (script_design : StoryboardInput) : Except ε AnimationScriptOutput :=
  model (storyboardPromptText script_design)

/-- The viewer prompt built by `viewer_experience` (pipeline.py lines 114-121):
a header line, then per shot (via `enumerate(zip(scene_elements, actions))`)
one numbered two-line block exposing only `scene_elements` and `actions`. -/
def viewer_input (storyboard : AnimationScriptOutput) : String :=
  let scene_elements := storyboard.storyboards.map (fun shot => shot.scene_elements)
  let actions := storyboard.storyboards.map (fun shot => shot.actions)
  "分镜设计中的画面和动作：\n" ++
    String.join ((scene_elements.zip actions).enum.map (fun p =>
      "分镜" ++ toString (p.1 + 1) ++ ". 画面一开始的构图描述: " ++ p.2.1 ++
        "\n   画面后续的视觉动态变化: " ++ p.2.2 ++ "\n"))

/-- `AnimationScriptPipeline.viewer_experience` (pipeline.py lines 104-125):
build the viewer prompt and invoke the viewer model once. -/
def viewer_experience {ε : Type} (model : String → Except ε String)
    (storyboard : AnimationScriptOutput) : Except ε String :=
  model (viewer_input storyboard)

/-- The literal approval marker tested at pipeline.py line 156. -/
def approvalMarker : String := "【审核通过】"

/-- Python's `s.startswith(pre)`: a literal prefix test on the character
sequences of the two strings. -/
def pyStartsWith (s pre : String) : Bool :=
  pre.data.isPrefixOf s.data

/-- `AnimationScriptPipeline.review_and_suggest` (pipeline.py lines 127-158):
invoke the reviewer model, then derive the continue flag by the literal prefix
test `need_continue = not review_output.startswith("【审核通过】")`.  The
reviewer oracle takes the three data inputs of the prompt directly (see the
module docstring). -/
def review_and_suggest {ε : Type}
    (model : String → String → AnimationScriptOutput → Except ε String)
    (original_story viewer_story : String) (storyboard : AnimationScriptOutput) :
    Except ε (String × Bool) := do
  let review_output ← model original_story viewer_story storyboard
  pure (review_output, !pyStartsWith review_output approvalMarker)

/-- The five model oracles the pipeline calls, one per agent of
`pipeline.py` (`optimize_story`, `design_script`, `design_storyboard`,
`viewer_experience`, `review_and_suggest`). -/
structure Agents (ε : Type) where
  optimize : String → Except ε String
  designScript : String → Except ε ScriptDesignOutput
  storyboardModel : String → Except ε AnimationScriptOutput
  viewerModel : String → Except ε String
  reviewerModel : String → String → AnimationScriptOutput → Except ε String

/-- Python truthiness of the `review_suggestion` variable (`None` or `str`)
as tested by `if review_suggestion:` at pipeline.py line 189: truthy iff it is
a non-empty string. -/
def truthy : Option String → Bool
  | none => false
  | some s => !s.isEmpty

/-- The revision-composite prompt of pipeline.py line 193:
`f"原分镜设计：\n {storyboard}\n\n 优化建议：\n {review_suggestion}"`. -/
def revisionComposite (storyboardText suggestion : String) : String :=
  "原分镜设计：\n " ++ storyboardText ++ "\n\n 优化建议：\n " ++ suggestion

/-- Python's `str()` applied to the `storyboard` variable (an
`AnimationScriptOutput` or `None`) inside the composite f-string;
`render` abstracts pydantic's `__str__`. -/
def renderOpt (render : AnimationScriptOutput → String) :
    Option AnimationScriptOutput → String
  | none => "None"
  | some sb => render sb

/-- One recorded pass of the refinement loop: the input handed to
`design_storyboard`, the storyboard it returned, the viewer output and the
review output of that pass. -/
structure PassRecord where
  sbInput : StoryboardInput
  storyboard : AnimationScriptOutput
  viewerStory : String
  reviewOutput : String
deriving DecidableEq, Repr

/-- Instrumentation of one `process_animation_story` run: the recorded loop
passes in order, the final value of the `iteration` counter, and whether the
loop ended through the `need_continue = False` break (approval). -/
structure RunTrace where
  passes : List PassRecord
  finalIteration : Nat
  approved : Bool
deriving DecidableEq, Repr

/-- The storyboard input chosen at the top of a loop pass
(pipeline.py lines 189-197). -/
def passInput (render : AnimationScriptOutput → String)
    (script_design : ScriptDesignOutput) (storyboard : Option AnimationScriptOutput)
    (review_suggestion : Option String) : StoryboardInput :=
  if truthy review_suggestion then
    .text (revisionComposite (renderOpt render storyboard) (review_suggestion.getD ""))
  else
    .structured script_design

/-- The `while iteration < max_iterations` loop of `process_animation_story`
(pipeline.py lines 186-217), with `fuel = max_iterations - iteration` as the
structural recursion measure: `fuel = 0` is exactly the loop condition
failing.  Each pass generates a storyboard (from the revision composite when
`review_suggestion` is truthy, else from the script design), runs the viewer,
runs the review; on `need_continue = False` it breaks without touching
`iteration`; otherwise it increments `iteration` and breaks when the bound is
reached. -/
def processLoop {ε : Type} (ag : Agents ε) (render : AnimationScriptOutput → String)
    (optimized_story : String) (script_design : ScriptDesignOutput) :
    Nat → Nat → Option AnimationScriptOutput → Option String →
      Except ε (Option AnimationScriptOutput × RunTrace)
  | 0, iteration, storyboard, _ => pure (storyboard, ⟨[], iteration, false⟩)
  | fuel + 1, iteration, storyboard, review_suggestion => do
    let input := passInput render script_design storyboard review_suggestion
    let sb ← design_storyboard ag.storyboardModel input
    let viewer_story ← viewer_experience ag.viewerModel sb
    let rv ← review_and_suggest ag.reviewerModel optimized_story viewer_story sb
    let pass : PassRecord := ⟨input, sb, viewer_story, rv.1⟩
    if rv.2 then
      if fuel = 0 then
        pure (some sb, ⟨[pass], iteration + 1, false⟩)
      else do
        let step ← processLoop ag render optimized_story script_design fuel
          (iteration + 1) (some sb) (some rv.1)
        pure (step.1, ⟨pass :: step.2.passes, step.2.finalIteration, step.2.approved⟩)
    else
      pure (some sb, ⟨[pass], iteration, true⟩)

/-- `AnimationScriptPipeline.process_animation_story`
(pipeline.py lines 160-220): optimize the story once, design the script once,
then run the refinement loop starting from `iteration = 0`,
`storyboard = None`, `review_suggestion = None`; return the pair
`(storyboard, script_design)` (paired here with the run trace). -/
def process_animation_story {ε : Type} (ag : Agents ε)
    (render : AnimationScriptOutput → String) (original_story : String)
    (max_iterations : Nat) :
    Except ε ((Option AnimationScriptOutput × ScriptDesignOutput) × RunTrace) := do
  let optimized_story ← ag.optimize original_story
  let script_design ← ag.designScript optimized_story
  let step ← processLoop ag render optimized_story script_design max_iterations 0 none none
  pure ((step.1, script_design), step.2)

/-- Prefix the first line of a block with the template's four-space indent
(the list is the line decomposition of a `chr(10).join(...)` interpolated
after four spaces); an empty block leaves just the indent as the line. -/
def indentHead : List String → List String
  | [] => ["    "]
  | h :: t => ("    " ++ h) :: t

/-! ## Concrete fixtures for witnesses and counterexamples -/

/-- A concrete storyboard shot. -/
def cShot : StoryboardInfo :=
  ⟨"1", "开场", "海边灯塔", "守塔人捡起瓶子", "舒缓钢琴", "海浪声", "5s"⟩

/-- A concrete storyboard. -/
def cSb : AnimationScriptOutput := ⟨[cShot]⟩

/-- The same storyboard with every field other than `scene_elements` and
`actions` changed. -/
def cSbB : AnimationScriptOutput :=
  ⟨[⟨"99", "别的标题", "海边灯塔", "守塔人捡起瓶子", "摇滚", "雷声", "99s"⟩]⟩

/-- A concrete script design. -/
def cSd : ScriptDesignOutput :=
  ⟨[⟨"守塔人", "孤独坚韧", "白胡子老人"⟩], [⟨"开场", "灯塔与海"⟩]⟩

/-- A concrete stand-in for pydantic's `str()` rendering of a storyboard. -/
def cRender : AnimationScriptOutput → String :=
  fun sb => toString sb.storyboards.length

/-- Oracles whose reviewer approves immediately. -/
def approveAgents : Agents String :=
  ⟨fun _ => .ok "OPT", fun _ => .ok cSd, fun _ => .ok cSb,
   fun _ => .ok "VIEW", fun _ _ _ => .ok "【审核通过】很好"⟩

/-- Oracles whose reviewer always answers with the empty string (which never
carries the approval marker). -/
def rejectAgents : Agents String :=
  ⟨fun _ => .ok "OPT", fun _ => .ok cSd, fun _ => .ok cSb,
   fun _ => .ok "VIEW", fun _ _ _ => .ok ""⟩

/-- Oracles whose reviewer always asks for (non-empty) revision. -/
def reviseAgents : Agents String :=
  ⟨fun _ => .ok "OPT", fun _ => .ok cSd, fun _ => .ok cSb,
   fun _ => .ok "VIEW", fun _ _ _ => .ok "需要改进"⟩

/-- Oracles whose storyboard model always fails. -/
def failAgents : Agents String :=
  ⟨fun _ => .ok "OPT", fun _ => .ok cSd, fun _ => .error "模型故障",
   fun _ => .ok "VIEW", fun _ _ _ => .ok ""⟩

/-- A reviewer oracle whose answer carries the approval marker in the middle
but not as a prefix. -/
def midMarkerReviewer : String → String → AnimationScriptOutput → Except Unit String :=
  fun _ _ _ => .ok "前言【审核通过】后缀"

/-- The trace of the one-pass immediately-approved run of `approveAgents`. -/
def cTrApprove : RunTrace :=
  ⟨[⟨.structured cSd, cSb, "VIEW", "【审核通过】很好"⟩], 0, true⟩

/-- The trace of the two-pass exhausted run of `rejectAgents`
(`max_iterations = 2`). -/
def cTrReject : RunTrace :=
  ⟨[⟨.structured cSd, cSb, "VIEW", ""⟩, ⟨.structured cSd, cSb, "VIEW", ""⟩], 2, false⟩

/-- The trace of the two-pass exhausted run of `reviseAgents`
(`max_iterations = 2`). -/
def cTrRevise : RunTrace :=
  ⟨[⟨.structured cSd, cSb, "VIEW", "需要改进"⟩,
    ⟨.text (revisionComposite (cRender cSb) "需要改进"), cSb, "VIEW", "需要改进"⟩], 2, false⟩

/-! ## Helper lemmas about the stages and the loop -/

theorem review_and_suggest_ok {ε : Type}
    (model : String → String → AnimationScriptOutput → Except ε String)
    (o v : String) (s : AnimationScriptOutput) (rv : String × Bool)
    (h : review_and_suggest model o v s = .ok rv) :
    model o v s = .ok rv.1 ∧ rv.2 = !pyStartsWith rv.1 approvalMarker := by
  cases hm : model o v s with
  | error e =>
    rw [review_and_suggest, hm] at h
    simp [Bind.bind, Except.bind] at h
  | ok out =>
    rw [review_and_suggest, hm] at h
    simp only [Bind.bind, Except.bind, pure, Except.pure, Except.ok.injEq] at h
    subst h
    simp [hm]

/-- The invariants of one `processLoop` run, by induction on the remaining
fuel: iteration accounting for the approval and exhaustion exits, the approval
marker on the final review when the run is approved, the returned storyboard
being the last pass's storyboard, the first pass input being computed from the
incoming loop state, and every later pass input being computed from the
directly preceding pass's storyboard and review output. -/
theorem processLoop_spec {ε : Type} (ag : Agents ε)
    (render : AnimationScriptOutput → String) (o : String) (sd : ScriptDesignOutput) :
    ∀ (fuel it : Nat) (st : Option AnimationScriptOutput) (r : Option String)
      (sb : Option AnimationScriptOutput) (tr : RunTrace),
      processLoop ag render o sd fuel it st r = .ok (sb, tr) →
      (tr.approved = true → tr.finalIteration + 1 = it + tr.passes.length ∧
        ∃ p, tr.passes.getLast? = some p ∧
          pyStartsWith p.reviewOutput approvalMarker = true) ∧
      (tr.approved = false → tr.finalIteration = it + tr.passes.length) ∧
      (match tr.passes.getLast? with
        | none => sb = st
        | some p => sb = some p.storyboard) ∧
      (∀ p ∈ tr.passes.head?, p.sbInput = passInput render sd st r) ∧
      List.Chain' (fun p q =>
        q.sbInput = passInput render sd (some p.storyboard) (some p.reviewOutput))
        tr.passes := by
  intro fuel
  induction fuel with
  | zero =>
    intro it st r sb tr h
    simp only [processLoop, pure, Except.pure, Except.ok.injEq, Prod.mk.injEq] at h
    obtain ⟨rfl, rfl⟩ := h
    simp
  | succ fuel ih =>
    intro it st r sb tr h
    simp only [processLoop] at h
    cases hsb : design_storyboard ag.storyboardModel (passInput render sd st r) with
    | error e => rw [hsb] at h; simp [Bind.bind, Except.bind] at h
    | ok sbv =>
      rw [hsb] at h
      simp only [Bind.bind, Except.bind] at h
      cases hv : viewer_experience ag.viewerModel sbv with
      | error e => rw [hv] at h; simp at h
      | ok viewer_story =>
        rw [hv] at h
        simp only at h
        cases hr : review_and_suggest ag.reviewerModel o viewer_story sbv with
        | error e => rw [hr] at h; simp at h
        | ok rv =>
          rw [hr] at h
          simp only at h
          have hrv := review_and_suggest_ok ag.reviewerModel o viewer_story sbv rv hr
          cases hneed : rv.2 with
          | false =>
            rw [hneed] at h
            simp only [Bool.false_eq_true, if_false, pure, Except.pure,
              Except.ok.injEq, Prod.mk.injEq] at h
            obtain ⟨rfl, rfl⟩ := h
            refine ⟨?_, by simp, by simp, ?_, by simp⟩
            · intro _
              refine ⟨by simp, ⟨⟨passInput render sd st r, sbv, viewer_story, rv.1⟩,
                by simp, ?_⟩⟩
              have h2 := hrv.2
              rw [hneed] at h2
              simpa using h2.symm
            · intro p hp
              simp only [List.head?_cons, Option.mem_def, Option.some.injEq] at hp
              subst hp
              rfl
          | true =>
            rw [hneed] at h
            simp only [if_true] at h
            by_cases hf : fuel = 0
            · subst hf
              simp only [if_pos rfl, pure, Except.pure, Except.ok.injEq,
                Prod.mk.injEq] at h
              obtain ⟨rfl, rfl⟩ := h
              refine ⟨by simp, by simp, by simp, ?_, by simp⟩
              intro p hp
              simp only [List.head?_cons, Option.mem_def, Option.some.injEq] at hp
              subst hp
              rfl
            · rw [if_neg hf] at h
              cases hrec : processLoop ag render o sd fuel (it + 1) (some sbv) (some rv.1) with
              | error e => rw [hrec] at h; simp [Bind.bind, Except.bind] at h
              | ok step =>
                rw [hrec] at h
                simp only [Bind.bind, Except.bind, pure, Except.pure,
                  Except.ok.injEq, Prod.mk.injEq] at h
                obtain ⟨rfl, rfl⟩ := h
                have hstep := ih (it + 1) (some sbv) (some rv.1) step.1 step.2
                  (by rw [hrec])
                refine ⟨?_, ?_, ?_, ?_, ?_⟩
                · intro happ
                  obtain ⟨hcount, p, hlast, hmark⟩ := hstep.1 happ
                  cases hps : step.2.passes with
                  | nil => rw [hps] at hlast; simp at hlast
                  | cons q l =>
                    refine ⟨by simp [hps] at hcount ⊢; omega, ⟨p, ?_, hmark⟩⟩
                    rw [hps] at hlast
                    simpa [List.getLast?_cons_cons, hps] using hlast
                · intro happ
                  have hcount := hstep.2.1 happ
                  simp only [List.length_cons]
                  omega
                · cases hps : step.2.passes with
                  | nil =>
                    have h3 := hstep.2.2.1
                    rw [hps] at h3
                    simp only [List.getLast?_nil] at h3
                    simp [hps, h3]
                  | cons q l =>
                    have h3 := hstep.2.2.1
                    rw [hps] at h3
                    simpa [hps, List.getLast?_cons_cons] using h3
                · intro p hp
                  simp only [List.head?_cons, Option.mem_def, Option.some.injEq] at hp
                  subst hp
                  rfl
                · refine List.chain'_cons'.mpr ⟨?_, hstep.2.2.2.2⟩
                  intro q hq
                  exact hstep.2.2.2.1 q hq

/-- A successful `process_animation_story` run decomposes into a successful
story optimization, a successful script design whose output is exactly the
returned `ScriptDesignOutput`, and a successful loop run from the initial
state `iteration = 0`, `storyboard = None`, `review_suggestion = None`. -/
theorem process_ok_elim {ε : Type} (ag : Agents ε)
    (render : AnimationScriptOutput → String) (story : String) (m : Nat)
    (sb : Option AnimationScriptOutput) (sd : ScriptDesignOutput) (tr : RunTrace)
    (h : process_animation_story ag render story m = .ok ((sb, sd), tr)) :
    ∃ o, ag.optimize story = .ok o ∧ ag.designScript o = .ok sd ∧
      processLoop ag render o sd m 0 none none = .ok (sb, tr) := by
  cases hopt : ag.optimize story with
  | error e =>
    rw [process_animation_story, hopt] at h
    simp [Bind.bind, Except.bind] at h
  | ok o =>
    rw [process_animation_story, hopt] at h
    simp only [Bind.bind, Except.bind] at h
    cases hdes : ag.designScript o with
    | error e => rw [hdes] at h; simp at h
    | ok sd0 =>
      rw [hdes] at h
      simp only at h
      cases hloop : processLoop ag render o sd0 m 0 none none with
      | error e => rw [hloop] at h; simp at h
      | ok step =>
        rw [hloop] at h
        simp only [pure, Except.pure, Except.ok.injEq, Prod.mk.injEq] at h
        obtain ⟨⟨h1, rfl⟩, h2⟩ := h
        refine ⟨o, rfl, hdes, ?_⟩
        rw [hloop, ← h1, ← h2]

/-- When all three loop-stage oracles always succeed and the reviewer never
emits the approval marker, the loop with positive fuel runs to exhaustion:
one pass per unit of fuel, no approval, the iteration counter reaching the
bound, and the result being the last pass's storyboard. -/
theorem processLoop_exhaust {ε : Type} (ag : Agents ε)
    (render : AnimationScriptOutput → String) (o : String) (sd : ScriptDesignOutput)
    (hsb : ∀ s, ∃ x, ag.storyboardModel s = .ok x)
    (hview : ∀ s, ∃ v, ag.viewerModel s = .ok v)
    (hrev : ∀ a b c, ∃ out, ag.reviewerModel a b c = .ok out ∧
      pyStartsWith out approvalMarker = false) :
    ∀ (fuel it : Nat) (st : Option AnimationScriptOutput) (r : Option String),
      0 < fuel →
      ∃ sb tr, processLoop ag render o sd fuel it st r = .ok (some sb, tr) ∧
        tr.passes.length = fuel ∧ tr.approved = false ∧
        tr.finalIteration = it + fuel ∧
        ∃ p, tr.passes.getLast? = some p ∧ sb = p.storyboard := by
  intro fuel
  induction fuel with
  | zero => intro it st r hpos; omega
  | succ fuel ih =>
    intro it st r _
    obtain ⟨sbv, hsbv⟩ := hsb (storyboardPromptText (passInput render sd st r))
    obtain ⟨v, hv⟩ := hview (viewer_input sbv)
    obtain ⟨out, hout, hmark⟩ := hrev o v sbv
    have hds : design_storyboard ag.storyboardModel (passInput render sd st r) = .ok sbv := hsbv
    have hve : viewer_experience ag.viewerModel sbv = .ok v := hv
    have hra : review_and_suggest ag.reviewerModel o v sbv =
        .ok (out, !pyStartsWith out approvalMarker) := by
      rw [review_and_suggest, hout]
      rfl
    by_cases hf : fuel = 0
    · subst hf
      refine ⟨sbv, ⟨[⟨passInput render sd st r, sbv, v, out⟩], it + 1, false⟩, ?_, by simp,
        rfl, rfl, ⟨⟨passInput render sd st r, sbv, v, out⟩, by simp, rfl⟩⟩
      simp only [processLoop, Bind.bind, Except.bind, hds, hve, hra, hmark,
        Bool.not_false, if_true, if_pos rfl]
      rfl
    · obtain ⟨sb', tr', hrec, hlen, happ, hit, p, hlast, hsb'⟩ :=
        ih (it + 1) (some sbv) (some out) (Nat.pos_of_ne_zero hf)
      refine ⟨sb', ⟨⟨passInput render sd st r, sbv, v, out⟩ :: tr'.passes,
        tr'.finalIteration, tr'.approved⟩, ?_, by simp [hlen], by simp [happ],
        by simp only; omega, ⟨p, ?_, hsb'⟩⟩
      · simp only [processLoop, Bind.bind, Except.bind, hds, hve, hra, hmark,
          Bool.not_false, if_true, if_neg hf, hrec]
        rfl
      · cases hps : tr'.passes with
        | nil => rw [hps] at hlast; simp at hlast
        | cons q l => rw [hps] at hlast; simpa [List.getLast?_cons_cons] using hlast

theorem strJoin_append (l t : List String) (hl : l ≠ []) (ht : t ≠ []) :
    strJoin "\n" (l ++ t) = strJoin "\n" l ++ "\n" ++ strJoin "\n" t := by
  induction l with
  | nil => exact absurd rfl hl
  | cons a l' ih =>
    cases l' with
    | nil =>
      cases t with
      | nil => exact absurd rfl ht
      | cons b t' => rfl
    | cons c l'' =>
      have step : strJoin "\n" ((a :: c :: l'') ++ t) =
          a ++ "\n" ++ strJoin "\n" ((c :: l'') ++ t) := rfl
      rw [step, ih (by simp)]
      show a ++ "\n" ++ (strJoin "\n" (c :: l'') ++ "\n" ++ strJoin "\n" t) =
        (a ++ "\n" ++ strJoin "\n" (c :: l'')) ++ "\n" ++ strJoin "\n" t
      simp [String.append_assoc]

theorem strJoin_indentHead (l : List String) :
    strJoin "\n" (indentHead l) = "    " ++ strJoin "\n" l := by
  cases l with
  | nil => exact (String.append_empty "    ").symm
  | cons h t =>
    cases t with
    | nil => rfl
    | cons h2 t2 =>
      show ("    " ++ h) ++ "\n" ++ strJoin "\n" (h2 :: t2) =
        "    " ++ (h ++ "\n" ++ strJoin "\n" (h2 :: t2))
      simp [String.append_assoc]

theorem indentHead_ne_nil (l : List String) : indentHead l ≠ [] := by
  cases l <;> simp [indentHead]

theorem passInput_no_suggestion {render : AnimationScriptOutput → String}
    {sd : ScriptDesignOutput} {st : Option AnimationScriptOutput} :
    passInput render sd st none = .structured sd := by
  simp [passInput, truthy]

theorem processLoop_storyboard_error {ε : Type} (ag : Agents ε)
    (render : AnimationScriptOutput → String) (o : String) (sd : ScriptDesignOutput)
    (fuel it : Nat) (st : Option AnimationScriptOutput) (r : Option String) (e : ε)
    (h : ag.storyboardModel (storyboardPromptText (passInput render sd st r)) = .error e) :
    processLoop ag render o sd (fuel + 1) it st r = .error e := by
  have hd : design_storyboard ag.storyboardModel (passInput render sd st r) = .error e := h
  simp only [processLoop, hd, Bind.bind, Except.bind]

theorem processLoop_viewer_error {ε : Type} (ag : Agents ε)
    (render : AnimationScriptOutput → String) (o : String) (sd : ScriptDesignOutput)
    (fuel it : Nat) (st : Option AnimationScriptOutput) (r : Option String)
    (sbv : AnimationScriptOutput) (e : ε)
    (h1 : ag.storyboardModel (storyboardPromptText (passInput render sd st r)) = .ok sbv)
    (h2 : ag.viewerModel (viewer_input sbv) = .error e) :
    processLoop ag render o sd (fuel + 1) it st r = .error e := by
  have hd : design_storyboard ag.storyboardModel (passInput render sd st r) = .ok sbv := h1
  have hv : viewer_experience ag.viewerModel sbv = .error e := h2
  simp only [processLoop, hd, hv, Bind.bind, Except.bind]

theorem processLoop_reviewer_error {ε : Type} (ag : Agents ε)
    (render : AnimationScriptOutput → String) (o : String) (sd : ScriptDesignOutput)
    (fuel it : Nat) (st : Option AnimationScriptOutput) (r : Option String)
    (sbv : AnimationScriptOutput) (v : String) (e : ε)
    (h1 : ag.storyboardModel (storyboardPromptText (passInput render sd st r)) = .ok sbv)
    (h2 : ag.viewerModel (viewer_input sbv) = .ok v)
    (h3 : ag.reviewerModel o v sbv = .error e) :
    processLoop ag render o sd (fuel + 1) it st r = .error e := by
  have hd : design_storyboard ag.storyboardModel (passInput render sd st r) = .ok sbv := h1
  have hv : viewer_experience ag.viewerModel sbv = .ok v := h2
  have hr : review_and_suggest ag.reviewerModel o v sbv = .error e := by
    rw [review_and_suggest, h3]
    rfl
  simp only [processLoop, hd, hv, hr, Bind.bind, Except.bind]

/-! ## Claim theorems -/

/-- C1: whenever the review stage returns `needs_revision = false`
(a review output carrying the approval-marker prefix), the loop stops
immediately on that pass — the approving pass is the last recorded pass, the
returned storyboard is that pass's storyboard — and the `iteration` counter is
not incremented on that terminal pass: at termination it equals the number of
passes minus one, i.e. its value before the approving review. -/
theorem approval_terminates_without_increment {ε : Type} (ag : Agents ε)
    (render : AnimationScriptOutput → String) (story : String) (m : Nat)
    (sb : Option AnimationScriptOutput) (sd : ScriptDesignOutput) (tr : RunTrace)
    (hrun : process_animation_story ag render story m = .ok ((sb, sd), tr))
    (happ : tr.approved = true) :
    tr.finalIteration + 1 = tr.passes.length ∧
    ∃ p, tr.passes.getLast? = some p ∧ sb = some p.storyboard ∧
      pyStartsWith p.reviewOutput approvalMarker = true := by
  obtain ⟨o, -, -, hloop⟩ := process_ok_elim ag render story m sb sd tr hrun
  have hs := processLoop_spec ag render o sd m 0 none none sb tr hloop
  obtain ⟨hcount, p, hlast, hmark⟩ := hs.1 happ
  refine ⟨by simpa using hcount, p, hlast, ?_, hmark⟩
  have h3 := hs.2.2.1
  rw [hlast] at h3
  exact h3

/-- Witness for C1: the immediately-approved concrete run. -/
theorem approval_terminates_without_increment_witness :
    cTrApprove.finalIteration + 1 = cTrApprove.passes.length ∧
    ∃ p, cTrApprove.passes.getLast? = some p ∧
      (some cSb : Option AnimationScriptOutput) = some p.storyboard ∧
      pyStartsWith p.reviewOutput approvalMarker = true :=
  approval_terminates_without_increment approveAgents cRender "s" 3
    (some cSb) cSd cTrApprove rfl rfl

/-- C3: with `max_iterations = 0`, the run still performs story optimization
and script design (their successful outputs are the hypotheses), enters no
loop pass (the trace is empty: zero storyboard, viewer and review calls), and
returns `(None, script_design)`. -/
theorem zero_iterations_returns_no_storyboard {ε : Type} (ag : Agents ε)
    (render : AnimationScriptOutput → String) (story o : String)
    (sd : ScriptDesignOutput)
    (hopt : ag.optimize story = .ok o) (hdes : ag.designScript o = .ok sd) :
    process_animation_story ag render story 0 = .ok ((none, sd), ⟨[], 0, false⟩) := by
  rw [process_animation_story, hopt]
  simp only [Bind.bind, Except.bind, hdes]
  rfl

/-- Witness for C3: the concrete zero-iteration run. -/
theorem zero_iterations_returns_no_storyboard_witness :
    process_animation_story approveAgents cRender "s" 0 =
      .ok ((none, cSd), ⟨[], 0, false⟩) :=
  zero_iterations_returns_no_storyboard approveAgents cRender "s" "OPT" cSd rfl rfl

/-- C4: the review verdict is a literal prefix test of the feedback text:
`review_and_suggest` returns the raw reviewer output paired with
`needs_revision = not feedback.startswith("【审核通过】")`, so
`needs_revision` is `false` exactly when the feedback starts with the marker
— any suffix after the marker still approves, and a marker appearing only
later in the text does not. -/
theorem review_verdict_is_prefix_test {ε : Type}
    (model : String → String → AnimationScriptOutput → Except ε String)
    (o v : String) (s : AnimationScriptOutput) (out : String)
    (h : model o v s = .ok out) :
    review_and_suggest model o v s = .ok (out, !pyStartsWith out approvalMarker) ∧
    ∀ b, review_and_suggest model o v s = .ok (out, b) →
      (b = false ↔ pyStartsWith out approvalMarker = true) := by
  have h1 : review_and_suggest model o v s =
      .ok (out, !pyStartsWith out approvalMarker) := by
    rw [review_and_suggest, h]
    rfl
  refine ⟨h1, ?_⟩
  intro b hb
  rw [h1] at hb
  simp only [Except.ok.injEq, Prod.mk.injEq] at hb
  obtain ⟨-, rfl⟩ := hb
  cases hpre : pyStartsWith out approvalMarker <;> simp

/-- Witness for C4: a feedback text carrying the marker mid-string (not as a
prefix) yields `needs_revision = true`. -/
theorem review_verdict_is_prefix_test_witness :
    review_and_suggest midMarkerReviewer "o" "v" cSb =
      .ok ("前言【审核通过】后缀", !pyStartsWith "前言【审核通过】后缀" approvalMarker) ∧
    ∀ b, review_and_suggest midMarkerReviewer "o" "v" cSb =
        .ok ("前言【审核通过】后缀", b) →
      (b = false ↔ pyStartsWith "前言【审核通过】后缀" approvalMarker = true) :=
  review_verdict_is_prefix_test midMarkerReviewer "o" "v" cSb
    "前言【审核通过】后缀" rfl

/-- C8: for every successful run — whatever the iteration bound and however
the loop unfolded — the returned `ScriptDesignOutput` is exactly the output
of the single script-design call made on the optimized story before the loop,
and runs of the same pipeline at any other iteration bound return that same
`ScriptDesignOutput`, so the loop never changes it. -/
theorem script_design_invoked_once_and_unchanged {ε : Type} (ag : Agents ε)
    (render : AnimationScriptOutput → String) (story : String) (m : Nat)
    (sb : Option AnimationScriptOutput) (sd : ScriptDesignOutput) (tr : RunTrace)
    (hrun : process_animation_story ag render story m = .ok ((sb, sd), tr)) :
    (∃ o, ag.optimize story = .ok o ∧ ag.designScript o = .ok sd) ∧
    ∀ (m' : Nat) (sb' : Option AnimationScriptOutput) (sd' : ScriptDesignOutput)
      (tr' : RunTrace),
      process_animation_story ag render story m' = .ok ((sb', sd'), tr') →
      sd' = sd := by
  obtain ⟨o, h1, h2, -⟩ := process_ok_elim ag render story m sb sd tr hrun
  refine ⟨⟨o, h1, h2⟩, ?_⟩
  intro m' sb' sd' tr' hrun'
  obtain ⟨o', h1', h2', -⟩ := process_ok_elim ag render story m' sb' sd' tr' hrun'
  rw [h1] at h1'
  obtain rfl : o' = o := by simpa using h1'.symm
  rw [h2] at h2'
  simpa using h2'.symm

/-- Witness for C8: the concrete approved run. -/
theorem script_design_invoked_once_and_unchanged_witness :
    ∃ o, approveAgents.optimize "s" = .ok o ∧ approveAgents.designScript o = .ok cSd :=
  (script_design_invoked_once_and_unchanged approveAgents cRender "s" 3
    (some cSb) cSd cTrApprove rfl).1

/-- C10: `design_storyboard` dispatches on the runtime type of its argument;
any input that is not a `ScriptDesignOutput` — such as any plain string,
including the empty one — is passed verbatim as the model prompt, with no
flattening, wrapping or validation applied. -/
theorem nonstructured_input_passed_verbatim {ε : Type}
    (model : String → Except ε AnimationScriptOutput) (s : String) :
    storyboardPromptText (.text s) = s ∧
    design_storyboard model (.text s) = model s :=
  ⟨rfl, rfl⟩

/-- C2: when every stage oracle succeeds and the reviewer never prefixes its
answer with the approval marker, a run with `max_iterations = m > 0`
terminates by exhaustion after exactly `m` loop passes — each pass being one
storyboard-generation call, one viewer call and one review call — with the
iteration counter at `m`, no approval, and the last-produced storyboard
returned. -/
theorem exhaustion_performs_exactly_max_iterations {ε : Type} (ag : Agents ε)
    (render : AnimationScriptOutput → String) (story o : String)
    (sd : ScriptDesignOutput) (m : Nat) (hm : 0 < m)
    (hopt : ag.optimize story = .ok o) (hdes : ag.designScript o = .ok sd)
    (hsb : ∀ s, ∃ x, ag.storyboardModel s = .ok x)
    (hview : ∀ s, ∃ v, ag.viewerModel s = .ok v)
    (hrev : ∀ a b c, ∃ out, ag.reviewerModel a b c = .ok out ∧
      pyStartsWith out approvalMarker = false) :
    ∃ sb tr, process_animation_story ag render story m = .ok ((some sb, sd), tr) ∧
      tr.passes.length = m ∧ tr.approved = false ∧ tr.finalIteration = m ∧
      ∃ p, tr.passes.getLast? = some p ∧ sb = p.storyboard := by
  obtain ⟨sb, tr, hloop, hlen, happ, hit, hp⟩ :=
    processLoop_exhaust ag render o sd hsb hview hrev m 0 none none hm
  refine ⟨sb, tr, ?_, hlen, happ, by simpa using hit, hp⟩
  rw [process_animation_story, hopt]
  simp only [Bind.bind, Except.bind, hdes, hloop]
  rfl

/-- Witness for C2: the two-pass exhausted concrete run of the
never-approving oracles. -/
theorem exhaustion_performs_exactly_max_iterations_witness :
    ∃ sb tr, process_animation_story rejectAgents cRender "s" 2 =
        .ok ((some sb, cSd), tr) ∧
      tr.passes.length = 2 ∧ tr.approved = false ∧ tr.finalIteration = 2 ∧
      ∃ p, tr.passes.getLast? = some p ∧ sb = p.storyboard :=
  exhaustion_performs_exactly_max_iterations rejectAgents cRender "s" "OPT" cSd 2
    (by decide) rfl rfl (fun _ => ⟨cSb, rfl⟩) (fun _ => ⟨"VIEW", rfl⟩)
    (fun _ _ _ => ⟨"", rfl, rfl⟩)

/-- C5 counterexample: the claim says every loop pass after the first feeds
storyboard generation a composite text built from the previous storyboard and
the latest review feedback.  In this concrete run the first review returns
the feedback text `""`; because the source guards the composite branch with
Python truthiness (`if review_suggestion:` — false for the empty string), the
second pass hands storyboard generation the structured `ScriptDesignOutput`
again, whose prompt differs from the composite the claim requires. -/
theorem second_pass_input_empty_feedback_counterexample :
    process_animation_story rejectAgents cRender "s" 2 = .ok ((some cSb, cSd), cTrReject) ∧
    cTrReject.passes.map (fun p => p.sbInput) =
      [.structured cSd, .structured cSd] ∧
    storyboardPromptText (.structured cSd) ≠ revisionComposite (cRender cSb) "" :=
  ⟨rfl, rfl, by decide⟩

/-- C5 (amended): in every loop pass, storyboard generation receives the
`ScriptDesignOutput` when the latest review feedback is absent **or empty**
(Python truthiness of `review_suggestion`), and otherwise receives the
composite text `原分镜设计：\n {prior storyboard rendering}\n\n 优化建议：\n
{feedback}` built from the directly preceding pass's storyboard (pre-update)
and its exact review feedback — which therefore textually contains both,
under the two distinct section labels. -/
theorem storyboard_input_selection {ε : Type} (ag : Agents ε)
    (render : AnimationScriptOutput → String) (story : String) (m : Nat)
    (sb : Option AnimationScriptOutput) (sd : ScriptDesignOutput) (tr : RunTrace)
    (hrun : process_animation_story ag render story m = .ok ((sb, sd), tr)) :
    (∀ p ∈ tr.passes.head?, p.sbInput = .structured sd) ∧
    List.Chain' (fun p q => q.sbInput =
      if p.reviewOutput.isEmpty then StoryboardInput.structured sd
      else .text (revisionComposite (render p.storyboard) p.reviewOutput))
      tr.passes := by
  obtain ⟨o, -, -, hloop⟩ := process_ok_elim ag render story m sb sd tr hrun
  have hs := processLoop_spec ag render o sd m 0 none none sb tr hloop
  constructor
  · intro p hp
    have h := hs.2.2.2.1 p hp
    simpa [passInput, truthy] using h
  · refine List.Chain'.imp ?_ hs.2.2.2.2
    intro p q hpq
    rw [hpq]
    by_cases he : p.reviewOutput.isEmpty
    · simp [passInput, truthy, he]
    · simp [passInput, truthy, he, renderOpt]

/-- Witness for C5 (amended): the two-pass revision run; its second pass
input is the composite built from the first pass's storyboard and feedback. -/
theorem storyboard_input_selection_witness :
    (∀ p ∈ cTrRevise.passes.head?, p.sbInput = .structured cSd) ∧
    List.Chain' (fun p q => q.sbInput =
      if p.reviewOutput.isEmpty then StoryboardInput.structured cSd
      else .text (revisionComposite (cRender p.storyboard) p.reviewOutput))
      cTrRevise.passes :=
  storyboard_input_selection reviseAgents cRender "s" 2 (some cSb) cSd cTrRevise rfl

/-- C6: the viewer-stage input text is a function of the per-shot
`(scene_elements, actions)` pairs alone, taken in order: two storyboards that
agree on those pairs produce the identical viewer prompt — and hence
identical viewer-stage calls — whatever their `shot_id`, `plot_title`,
`bgm_description`, `sound_effect` or `duration` fields. -/
theorem viewer_input_depends_only_on_scene_actions (s1 s2 : AnimationScriptOutput)
    (h : s1.storyboards.map (fun sh => (sh.scene_elements, sh.actions)) =
      s2.storyboards.map (fun sh => (sh.scene_elements, sh.actions))) :
    viewer_input s1 = viewer_input s2 ∧
    ∀ (ε : Type) (model : String → Except ε String),
      viewer_experience model s1 = viewer_experience model s2 := by
  have key : viewer_input s1 = viewer_input s2 := by
    simp only [viewer_input, List.zip_map']
    rw [h]
  exact ⟨key, fun ε model => by rw [viewer_experience, viewer_experience, key]⟩

/-- Witness for C6: two storyboards differing in every field except
`scene_elements` and `actions` produce the same viewer prompt. -/
theorem viewer_input_depends_only_on_scene_actions_witness :
    viewer_input cSb = viewer_input cSbB :=
  (viewer_input_depends_only_on_scene_actions cSb cSbB (by decide)).1

/-- C9: stage failures abort the run and propagate unchanged: an error from
story optimization, script design, or (with a positive iteration bound) from
the first pass's storyboard model, viewer model or reviewer model surfaces as
exactly that error from `process_animation_story`, so the result pair exists
only for clean stops; and `design_storyboard` re-raises its model's error
unchanged rather than returning a partial storyboard. -/
theorem stage_errors_propagate_unchanged {ε : Type} (ag : Agents ε)
    (render : AnimationScriptOutput → String) (story : String) (m : Nat) :
    (∀ e, ag.optimize story = .error e →
      process_animation_story ag render story m = .error e) ∧
    (∀ o e, ag.optimize story = .ok o → ag.designScript o = .error e →
      process_animation_story ag render story m = .error e) ∧
    (∀ input e, ag.storyboardModel (storyboardPromptText input) = .error e →
      design_storyboard ag.storyboardModel input = .error e) ∧
    (∀ o sd e, 0 < m → ag.optimize story = .ok o → ag.designScript o = .ok sd →
      ag.storyboardModel (flattenScript sd) = .error e →
      process_animation_story ag render story m = .error e) ∧
    (∀ o sd sbv e, 0 < m → ag.optimize story = .ok o → ag.designScript o = .ok sd →
      ag.storyboardModel (flattenScript sd) = .ok sbv →
      ag.viewerModel (viewer_input sbv) = .error e →
      process_animation_story ag render story m = .error e) ∧
    (∀ o sd sbv v e, 0 < m → ag.optimize story = .ok o → ag.designScript o = .ok sd →
      ag.storyboardModel (flattenScript sd) = .ok sbv →
      ag.viewerModel (viewer_input sbv) = .ok v →
      ag.reviewerModel o v sbv = .error e →
      process_animation_story ag render story m = .error e) := by
  refine ⟨?_, ?_, ?_, ?_, ?_, ?_⟩
  · intro e he
    rw [process_animation_story, he]
    rfl
  · intro o e hopt hdes
    rw [process_animation_story, hopt]
    simp only [Bind.bind, Except.bind, hdes]
  · intro input e h
    exact h
  · intro o sd e hm hopt hdes h
    obtain ⟨m', rfl⟩ : ∃ m', m = m' + 1 := ⟨m - 1, by omega⟩
    rw [process_animation_story, hopt]
    have hl := processLoop_storyboard_error ag render o sd m' 0 none none e
      (by rw [passInput_no_suggestion]; exact h)
    simp only [Bind.bind, Except.bind, hdes, hl]
  · intro o sd sbv e hm hopt hdes h1 h2
    obtain ⟨m', rfl⟩ : ∃ m', m = m' + 1 := ⟨m - 1, by omega⟩
    rw [process_animation_story, hopt]
    have hl := processLoop_viewer_error ag render o sd m' 0 none none sbv e
      (by rw [passInput_no_suggestion]; exact h1) h2
    simp only [Bind.bind, Except.bind, hdes, hl]
  · intro o sd sbv v e hm hopt hdes h1 h2 h3
    obtain ⟨m', rfl⟩ : ∃ m', m = m' + 1 := ⟨m - 1, by omega⟩
    rw [process_animation_story, hopt]
    have hl := processLoop_reviewer_error ag render o sd m' 0 none none sbv v e
      (by rw [passInput_no_suggestion]; exact h1) h2 h3
    simp only [Bind.bind, Except.bind, hdes, hl]

/-- Witness for C9: a failing storyboard model makes the whole run fail with
exactly its error. -/
theorem stage_errors_propagate_unchanged_witness :
    process_animation_story failAgents cRender "s" 1 = .error "模型故障" :=
  (stage_errors_propagate_unchanged failAgents cRender "s" 1).2.2.2.1
    "OPT" cSd "模型故障" (by decide) rfl rfl rfl

/-- C7: given a `ScriptDesignOutput`, `design_storyboard` flattens it into
the single text block `flattenScript` before invoking the model, and that
block's lines are exactly: an empty line, the section header, one line per
character of the form `- name: characteristics, 外观: appearance` (the first
carrying the template indent), a whitespace-only separator line, the
plot-point header, one line per plot point of the form `-  title:
description`, and the closing-indent line. -/
theorem flatten_script_single_block_line_structure {ε : Type}
    (model : String → Except ε AnimationScriptOutput) (sd : ScriptDesignOutput) :
    design_storyboard model (.structured sd) = model (flattenScript sd) ∧
    flattenScript sd = strJoin "\n"
      (["", "    角色设计:"] ++ indentHead (sd.characters.map charLine) ++
        ["    ", "    情节点:"] ++ indentHead (sd.plot_points.map plotLine) ++
        ["                "]) := by
  refine ⟨rfl, ?_⟩
  rw [List.append_assoc (["", "    角色设计:"] ++ indentHead (sd.characters.map charLine))
    ["    ", "    情节点:"] (indentHead (sd.plot_points.map plotLine)),
    List.append_assoc (["", "    角色设计:"] ++ indentHead (sd.characters.map charLine))
    (["    ", "    情节点:"] ++ indentHead (sd.plot_points.map plotLine)) ["                "],
    strJoin_append (["", "    角色设计:"] ++ indentHead (sd.characters.map charLine))
    ((["    ", "    情节点:"] ++ indentHead (sd.plot_points.map plotLine)) ++ ["                "])
    (by simp) (by simp),
    strJoin_append ["", "    角色设计:"] (indentHead (sd.characters.map charLine))
    (by simp) (indentHead_ne_nil (sd.characters.map charLine)),
    strJoin_append (["    ", "    情节点:"] ++ indentHead (sd.plot_points.map plotLine))
    ["                "] (by simp) (by simp),
    strJoin_append ["    ", "    情节点:"] (indentHead (sd.plot_points.map plotLine))
    (by simp) (indentHead_ne_nil (sd.plot_points.map plotLine)),
    strJoin_indentHead (sd.characters.map charLine),
    strJoin_indentHead (sd.plot_points.map plotLine), flattenScript]
  generalize strJoin "\n" (sd.characters.map charLine) = J
  generalize strJoin "\n" (sd.plot_points.map plotLine) = K
  have e1 : strJoin "\n" ["", "    角色设计:"] = "\n    角色设计:" := rfl
  have e2 : strJoin "\n" ["    ", "    情节点:"] = "    \n    情节点:" := rfl
  have e3 : strJoin "\n" ["                "] = "                " := rfl
  rw [e1, e2, e3]
  have m1 : ∀ X : String,
      "\n    角色设计:" ++ ("\n" ++ ("    " ++ X)) = "\n    角色设计:\n    " ++ X := by
    intro X
    simp only [← String.append_assoc]
    exact congrArg (· ++ X) rfl
  have m2 : ∀ X : String,
      "\n" ++ ("    \n    情节点:" ++ ("\n" ++ ("    " ++ X))) =
        "\n    \n    情节点:\n    " ++ X := by
    intro X
    simp only [← String.append_assoc]
    exact congrArg (· ++ X) rfl
  have m3 : "\n" ++ "                " = "\n                " := rfl
  simp only [String.append_assoc]
  rw [m3, m2, m1]

end VideoCube
